import Mathlib

/-!
Shallow embedding of the Agent Studio dashboard
(src/app/src/components/AgentStudio.tsx): the view-state record, the
event handlers, and the mock content generators imported from the lib
module "agent".  The lib module is not part of the repository snapshot,
so its four functions are modelled from the spec; every handler below is
translated from the component source.  The JavaScript clock (Date.now)
is made explicit as a natural-number argument `now`.
-/

namespace AgentStudio

/-- Mission configuration record (free text and two enumerated fields,
kept as strings exactly as in the TypeScript string-literal unions). -/
structure MissionConfig where
  goal : String
  context : String
  timeframe : String
  intensity : String
  guardrails : String
deriving DecidableEq, Repr

/-- One step of the generated plan. -/
structure PlanStep where
  id : String
  title : String
  duration : String
  narrative : String
  leverage : String
  confidence : Nat
  energy : String
  catalyst : String
  dependencies : List String
deriving DecidableEq, Repr

/-- A mock tool surfaced in the tool console. -/
structure AgentTool where
  id : String
  name : String
  description : String
  scenario : String
deriving DecidableEq, Repr

/-- A quick action shown under strategic anchors. -/
structure QuickAction where
  id : String
  label : String
  objective : String
  value : String
deriving DecidableEq, Repr

/-- A success metric shown under strategic anchors. -/
structure Metric where
  id : String
  label : String
  target : String
  cadence : String
deriving DecidableEq, Repr

/-- A cell of the focus vector map. -/
structure FocusCell where
  id : String
  label : String
  score : Nat
  driver : String
deriving DecidableEq, Repr

/-- The derived blueprint bundle, recomputed wholesale per generation. -/
structure AgentBlueprint where
  missionTitle : String
  missionSummary : String
  operatingMode : String
  missionArc : String
  cadence : String
  plan : List PlanStep
  tools : List AgentTool
  quickActions : List QuickAction
  metrics : List Metric
  focusMap : List FocusCell
deriving DecidableEq, Repr

/-- One simulated tool invocation result. -/
structure ToolRun where
  timestamp : Nat
  headline : String
  insight : String
  signalStrength : Nat
deriving DecidableEq, Repr

/-- One entry of the activity stream. -/
structure ActivityLogItem where
  id : String
  label : String
  detail : String
  timestamp : Nat
deriving DecidableEq, Repr

/-- Category tag of a captured insight. -/
inductive InsightCategory where
  | signal
  | decision
  | note
deriving DecidableEq, Repr

/-- A user-captured insight. -/
structure Insight where
  id : String
  text : String
  category : InsightCategory
  createdAt : Nat
deriving DecidableEq, Repr

/-- Status of one plan step, tracked outside the blueprint. -/
inductive StepStatus where
  | pending
  | active
  | done
deriving DecidableEq, Repr

/-- An item of the static knowledge catalog. -/
structure KnowledgeItem where
  id : String
  title : String
  summary : String
  tags : List String
deriving DecidableEq, Repr

/-- The `planStates` record: a JavaScript object mapping step ids to
statuses, modelled as a partial map (absent keys read as `none`). -/
abbrev PlanState := String → Option StepStatus

/-- JavaScript `String.prototype.trim`: strip leading and trailing
whitespace characters. -/
def trimStr (s : String) : String :=
  String.mk
    (((s.data.dropWhile Char.isWhitespace).reverse.dropWhile
        Char.isWhitespace).reverse)

/-- JavaScript `String.prototype.toLowerCase` (ASCII case folding). -/
def lowerStr (s : String) : String :=
  String.mk (s.data.map Char.toLower)

/-- Reading a status out of `planStates` the way the timeline renders it:
`planStates[step.id] ?? "pending"`. -/
def statusOf (m : PlanState) (stepId : String) : StepStatus :=
  (m stepId).getD .pending

/-- Modelled from the spec: `createActivity` from the lib module "agent"
builds an ActivityLogItem with an id, the given label and detail, and a
timestamp; the clock is the explicit `now` argument. -/
def createActivity (now : Nat) (label detail : String) : ActivityLogItem :=
  { id := "activity-" ++ toString now
    label := label
    detail := detail
    timestamp := now }

/-- Modelled from the spec: `runToolSimulation` from the lib module
"agent" produces a single synthetic result record with a headline, a
narrative insight line and a numeric signal strength, via string
templates keyed on the tool id and the query. -/
def runToolSimulation (now : Nat) (toolId query : String) : ToolRun :=
  { timestamp := now
    headline := toolId ++ " scan complete"
    insight := "Simulated reading for \"" ++ query ++ "\" via " ++ toolId
    signalStrength := (toolId.length * 17 + query.length * 7) % 41 + 60 }

/-- Modelled from the spec: `craftBlueprint` from the lib module "agent"
is a pure function mapping a configuration to a title, summary,
operating mode, mission arc, cadence, ordered plan steps, tool list,
quick actions, metrics and focus scores via string templates keyed on
configuration fields.  The plan step ids are fixed distinct strings. -/
def craftBlueprint (c : MissionConfig) : AgentBlueprint :=
  { missionTitle := "Mission: " ++ c.goal
    missionSummary :=
      "An " ++ c.intensity ++ " push over " ++ c.timeframe ++
        " grounded in: " ++ c.context
    operatingMode := c.intensity ++ " operating mode"
    missionArc := "Arc: " ++ c.goal ++ " within " ++ c.timeframe
    cadence := "Cadence tuned for a " ++ c.timeframe ++ " horizon"
    plan :=
      [ { id := "step-0"
          title := "Frame the mission"
          duration := "Phase kickoff"
          narrative := "Align the team on " ++ c.goal
          leverage := "Clarity"
          confidence := 92
          energy := "High"
          catalyst := "Kickoff ritual"
          dependencies := [] }
      , { id := "step-1"
          title := "Map the terrain"
          duration := "Early phase"
          narrative := "Survey the context: " ++ c.context
          leverage := "Information"
          confidence := 84
          energy := "Medium"
          catalyst := "Research sprint"
          dependencies := ["step-0"] }
      , { id := "step-2"
          title := "Build the engine"
          duration := "Mid phase"
          narrative := "Assemble systems at " ++ c.intensity ++ " pace"
          leverage := "Automation"
          confidence := 76
          energy := "High"
          catalyst := "Build week"
          dependencies := ["step-1"] }
      , { id := "step-3"
          title := "Run the loops"
          duration := "Late phase"
          narrative := "Iterate inside guardrails: " ++ c.guardrails
          leverage := "Feedback"
          confidence := 71
          energy := "Medium"
          catalyst := "Weekly review"
          dependencies := ["step-2"] }
      , { id := "step-4"
          title := "Compound the wins"
          duration := "Closing phase"
          narrative := "Lock in gains before " ++ c.timeframe ++ " closes"
          leverage := "Momentum"
          confidence := 68
          energy := "Low"
          catalyst := "Retrospective"
          dependencies := ["step-3"] }
      ]
    tools :=
      [ { id := "tool-signal"
          name := "Signal Scanner"
          description := "Scans buyer motion for fresh signals"
          scenario := "Feed it the mission goal to surface demand shifts" }
      , { id := "tool-market"
          name := "Market Prism"
          description := "Refracts the market into segments"
          scenario := "Use it to prioritise segments for " ++ c.timeframe }
      ]
    quickActions :=
      [ { id := "qa-0"
          label := "Announce the mission"
          objective := "Create shared context fast"
          value := "Alignment" }
      , { id := "qa-1"
          label := "Stand up the dashboard"
          objective := "Make progress visible"
          value := "Momentum" }
      ]
    metrics :=
      [ { id := "metric-0"
          label := "Qualified pipeline"
          target := "Double within " ++ c.timeframe
          cadence := "Weekly" }
      , { id := "metric-1"
          label := "Cycle time"
          target := "Cut by a third"
          cadence := "Biweekly" }
      ]
    focusMap :=
      [ { id := "focus-0", label := "Demand", score := 87, driver := c.goal }
      , { id := "focus-1", label := "Systems", score := 74, driver := c.context }
      , { id := "focus-2", label := "Trust", score := 81, driver := c.guardrails }
      ] }

/-- Substring test on character lists: `isSeqAt needle hay` holds when
`needle` is an initial segment of `hay`. -/
def isSeqAt : List Char → List Char → Bool
  | [], _ => true
  | _ :: _, [] => false
  | a :: as, b :: bs => a == b && isSeqAt as bs

/-- Substring test on character lists: `hasSub needle hay` holds when
`needle` occurs contiguously inside `hay`. -/
def hasSub (needle : List Char) : List Char → Bool
  | [] => needle.isEmpty
  | b :: bs => isSeqAt needle (b :: bs) || hasSub needle bs

/-- Modelled from the spec: the fixed in-memory knowledge catalog the
knowledge grid filters. -/
def KNOWLEDGE_ITEMS : List KnowledgeItem :=
  [ { id := "knowledge-0"
      title := "Demand Gen Flywheel"
      summary := "A framework for compounding inbound demand"
      tags := ["framework", "growth"] }
  , { id := "knowledge-1"
      title := "Weekly Momentum Ritual"
      summary := "A cadence ritual for fast-moving teams"
      tags := ["ritual", "cadence"] }
  , { id := "knowledge-2"
      title := "Signal Triage Board"
      summary := "An asset for sorting market signals by strength"
      tags := ["asset", "signals"] }
  , { id := "knowledge-3"
      title := "Guardrail Checklist"
      summary := "A checklist keeping aggressive plays compliant"
      tags := ["checklist", "compliance"] }
  ]

/-- Match of one normalized query against one catalog item: substring
match against the lowercased title, summary, or any tag. -/
def matchesKnowledge (q : String) (item : KnowledgeItem) : Bool :=
  hasSub q.data (lowerStr item.title).data
    || hasSub q.data (lowerStr item.summary).data
    || item.tags.any (fun tag => hasSub q.data (lowerStr tag).data)

/-- Modelled from the spec: `searchKnowledge` from the lib module
"agent" filters the fixed catalog by substring/keyword match against
title, summary, or tags; an empty query returns the full catalog. -/
def searchKnowledge (query : String) : List KnowledgeItem :=
  let q := lowerStr (trimStr query)
  if q = "" then KNOWLEDGE_ITEMS
  else KNOWLEDGE_ITEMS.filter (matchesKnowledge q)

/-- The whole component state: one field per `useState` hook of
`AgentStudio`. -/
structure StudioState where
  config : MissionConfig
  blueprint : AgentBlueprint
  planStates : PlanState
  activity : List ActivityLogItem
  insights : List Insight
  insightDraft : String
  insightCategory : InsightCategory
  knowledgeQuery : String
  toolHistory : String → Option (List ToolRun)

/-- The `forEach` loop that seeds a plan-state object: assigns, in plan
order, status "active" at index 0 and "pending" elsewhere. -/
def buildPlanStates : List PlanStep → Nat → PlanState → PlanState
  | [], _, m => m
  | step :: rest, index, m =>
      buildPlanStates rest (index + 1)
        (fun k =>
          if k = step.id then some (if index = 0 then .active else .pending)
          else m k)

/-- Fresh plan-state object for a plan (used by the initial state and by
`handleGenerate`): step 0 active, every other step pending. -/
def resetPlanStates (plan : List PlanStep) : PlanState :=
  buildPlanStates plan 0 (fun _ => none)

/-- The default mission configuration (INITIAL_CONFIG). -/
def INITIAL_CONFIG : MissionConfig :=
  { goal :=
      "Launch an AI-native growth engine that doubles qualified pipeline within 90 days."
    context :=
      "B2B SaaS scaling to mid-market. Need rapid insights on buyer motion and automation opportunities."
    timeframe := "90 days"
    intensity := "aggressive"
    guardrails := "Maintain brand trust and legal compliance while moving fast." }

/-- The blueprint generated from the default configuration. -/
def INITIAL_BLUEPRINT : AgentBlueprint := craftBlueprint INITIAL_CONFIG

/-- A fresh studio state over a configuration and a blueprint: plan
state seeded with step 0 active, one seeded activity entry, everything
else empty. -/
def freshStudioState (c : MissionConfig) (bp : AgentBlueprint) : StudioState :=
  { config := c
    blueprint := bp
    planStates := resetPlanStates bp.plan
    activity :=
      [createActivity 0 "Agent Primed"
        "Mission seeded with default aggressive growth blueprint."]
    insights := []
    insightDraft := ""
    insightCategory := .signal
    knowledgeQuery := ""
    toolHistory := fun _ => none }

/-- The component's initial state. -/
def initialState : StudioState :=
  freshStudioState INITIAL_CONFIG INITIAL_BLUEPRINT

/-- The `activeStep` memo: the first plan step whose recorded status is
exactly "active" (absent keys do not match). -/
def activeStep (s : StudioState) : Option PlanStep :=
  s.blueprint.plan.find?
    (fun step => decide (s.planStates step.id = some StepStatus.active))

/-- JavaScript `findIndex` as an optional index (converted to an `Int`
with default -1 at the use site). -/
def findIdxO (p : α → Bool) : List α → Option Nat
  | [] => none
  | a :: l => if p a then some 0 else (findIdxO p l).map (· + 1)

/-- `handleGenerate`: regenerate the blueprint from the current
configuration, reseed the plan states, and prepend an activity entry. -/
def handleGenerate (now : Nat) (s : StudioState) : StudioState :=
  let nextBlueprint := craftBlueprint s.config
  { s with
    blueprint := nextBlueprint
    planStates := resetPlanStates nextBlueprint.plan
    activity :=
      createActivity now "Mission Rebuilt"
        ("Agent recalibrated around \"" ++
          (if s.config.goal = "" then "new objective" else s.config.goal) ++
          "\".")
        :: s.activity }

/-- The plan-state update of `handleAdvance`: mark the given step done,
then look up its index with `findIndex` (-1 when absent) and, when a
step exists at the successor position, mark that step active. -/
def advanceStates (plan : List PlanStep) (prev : PlanState) (step : PlanStep) :
    PlanState :=
  let next : PlanState := fun k => if k = step.id then some .done else prev k
  let currentIndex : Int :=
    match findIdxO (fun item => decide (item.id = step.id)) plan with
    | some i => (i : Int)
    | none => -1
  match plan.get? (currentIndex + 1).toNat with
  | some nextStep => fun k => if k = nextStep.id then some .active else next k
  | none => next

/-- `handleAdvance`: apply the plan-state update and prepend an activity
entry. -/
def handleAdvance (now : Nat) (s : StudioState) (step : PlanStep) : StudioState :=
  { s with
    planStates := advanceStates s.blueprint.plan s.planStates step
    activity :=
      createActivity now "Step Advanced"
        (step.title ++ " marked complete. Catalyst: " ++ step.catalyst ++ ".")
        :: s.activity }

/-- `handleInsightCreate`: with a whitespace-only draft, return
unchanged; otherwise prepend a trimmed insight, clear the draft, and
prepend an activity entry. -/
def handleInsightCreate (now : Nat) (s : StudioState) : StudioState :=
  if trimStr s.insightDraft = "" then s
  else
    let entry : Insight :=
      { id := "insight-" ++ toString now
        text := trimStr s.insightDraft
        category := s.insightCategory
        createdAt := now }
    { s with
      insights := entry :: s.insights
      insightDraft := ""
      activity := createActivity now "Insight Captured" entry.text :: s.activity }

/-- `handleToolRun`: simulate the tool, prepend the run to that tool's
history truncated to 5 entries, and prepend an activity entry. -/
def handleToolRun (now : Nat) (s : StudioState) (toolId query : String) :
    StudioState :=
  let run := runToolSimulation now toolId query
  let history := (s.toolHistory toolId).getD []
  { s with
    toolHistory :=
      fun k => if k = toolId then some ((run :: history).take 5) else s.toolHistory k
    activity :=
      createActivity now "Tool Fired" (toolId ++ " returned " ++ run.headline)
        :: s.activity }

/-- The mission-goal textarea `onChange` handler: replace only the goal
field of the configuration. -/
def handleGoalChange (s : StudioState) (value : String) : StudioState :=
  { s with config := { s.config with goal := value } }

/-- The knowledge-grid input `onChange` handler: replace the query. -/
def handleKnowledgeQueryChange (s : StudioState) (value : String) : StudioState :=
  { s with knowledgeQuery := value }

/-- One advancement applied to the currently active step (the only step
whose advance button is enabled); no-op when no step is active. -/
def advanceActive (now : Nat) (s : StudioState) : StudioState :=
  match activeStep s with
  | some step => handleAdvance now s step
  | none => s

/-- `n` consecutive advancements, each applied to the then-active step. -/
def advanceActiveN (s : StudioState) : Nat → StudioState
  | 0 => s
  | n + 1 => advanceActive 0 (advanceActiveN s n)

/-- Per-tool history as the console renders it: absent keys read as the
empty list. -/
def histOf (s : StudioState) (toolId : String) : List ToolRun :=
  (s.toolHistory toolId).getD []

/-- A sequence of tool invocations: each event is a clock value, a tool
id and a query. -/
def runToolEvents (s : StudioState) : List (Nat × String × String) → StudioState
  | [] => s
  | e :: es => runToolEvents (handleToolRun e.1 s e.2.1 e.2.2) es

/-! Plan-advancement machinery: the plan states reachable by always
advancing the active step are exactly the "stage `n`" maps, where the
first `n` steps are done, step `n` (if it exists) is active, and the
rest are pending. -/

/-- Status of the step at position `i` once the first `n` steps have
been completed. -/
def stageStatus (n i : Nat) : StepStatus :=
  if i < n then .done else if i = n then .active else .pending

/-- A plan-state map records stage `n` of a plan. -/
def IsStage (plan : List PlanStep) (n : Nat) (m : PlanState) : Prop :=
  ∀ i (hi : i < plan.length), m (plan.get ⟨i, hi⟩).id = some (stageStatus n i)

theorem stage_done_iff (n i : Nat) : stageStatus n i = .done ↔ i < n := by
  unfold stageStatus
  split_ifs with h1 h2 <;> simp_all

theorem stage_active_iff (n i : Nat) : stageStatus n i = .active ↔ i = n := by
  unfold stageStatus
  split_ifs with h1 h2 <;> simp_all <;> omega

theorem buildPlanStates_not_mem (l : List PlanStep) :
    ∀ (i : Nat) (m : PlanState) (k : String), k ∉ l.map PlanStep.id →
      buildPlanStates l i m k = m k := by
  induction l with
  | nil => intro i m k _; rfl
  | cons step rest ih =>
    intro i m k hk
    simp only [List.map_cons, List.mem_cons, not_or] at hk
    simp only [buildPlanStates]
    rw [ih _ _ _ hk.2, if_neg hk.1]

theorem buildPlanStates_get (l : List PlanStep)
    (hnd : (l.map PlanStep.id).Nodup) :
    ∀ (j : Nat) (hj : j < l.length) (i : Nat) (m : PlanState),
      buildPlanStates l i m (l.get ⟨j, hj⟩).id
        = some (if i + j = 0 then .active else .pending) := by
  induction l with
  | nil => intro j hj; simp at hj
  | cons step rest ih =>
    simp only [List.map_cons, List.nodup_cons] at hnd
    intro j hj i m
    cases j with
    | zero =>
      simp only [List.get, buildPlanStates]
      rw [buildPlanStates_not_mem rest _ _ _ hnd.1, if_pos rfl]
      simp
    | succ jj =>
      have hj2 : jj < rest.length := by
        simp only [List.length_cons] at hj
        omega
      have e : i + (jj + 1) = (i + 1) + jj := by omega
      simp only [List.get, buildPlanStates]
      rw [ih hnd.2 jj hj2 (i + 1) _, e]

theorem reset_IsStage (plan : List PlanStep)
    (hnd : (plan.map PlanStep.id).Nodup) :
    IsStage plan 0 (resetPlanStates plan) := by
  intro i hi
  unfold resetPlanStates
  rw [buildPlanStates_get plan hnd i hi 0 _]
  congr 1
  unfold stageStatus
  split_ifs <;> simp_all

theorem ids_inj (l : List PlanStep) (hnd : (l.map PlanStep.id).Nodup) :
    ∀ (i j : Nat) (hi : i < l.length) (hj : j < l.length),
      (l.get ⟨i, hi⟩).id = (l.get ⟨j, hj⟩).id → i = j := by
  induction l with
  | nil => intro i j hi; simp at hi
  | cons step rest ih =>
    simp only [List.map_cons, List.nodup_cons] at hnd
    intro i j hi hj h
    cases i with
    | zero =>
      cases j with
      | zero => rfl
      | succ jj =>
        exfalso
        apply hnd.1
        simp only [List.get] at h
        rw [h]
        exact List.mem_map_of_mem _ (List.get_mem rest jj (by simpa using hj))
    | succ ii =>
      cases j with
      | zero =>
        exfalso
        apply hnd.1
        simp only [List.get] at h
        rw [← h]
        exact List.mem_map_of_mem _ (List.get_mem rest ii (by simpa using hi))
      | succ jj =>
        have := ih hnd.2 ii jj (by simpa using hi) (by simpa using hj) h
        omega

theorem findIdxO_get (l : List PlanStep) (hnd : (l.map PlanStep.id).Nodup) :
    ∀ (n : Nat) (hn : n < l.length),
      findIdxO (fun item => decide (item.id = (l.get ⟨n, hn⟩).id)) l = some n := by
  induction l with
  | nil => intro n hn; simp at hn
  | cons step rest ih =>
    simp only [List.map_cons, List.nodup_cons] at hnd
    intro n hn
    cases n with
    | zero => simp [findIdxO]
    | succ m =>
      have hm : m < rest.length := by simpa using hn
      have hstep : ¬ step.id = (rest.get ⟨m, hm⟩).id := by
        intro h
        apply hnd.1
        rw [h]
        exact List.mem_map_of_mem _ (List.get_mem rest m hm)
      simp only [List.get, findIdxO, decide_eq_true_eq]
      rw [if_neg hstep, ih hnd.2 m hm]
      rfl

theorem findIdxO_eq_none (p : α → Bool) (l : List α)
    (h : ∀ a ∈ l, p a = false) : findIdxO p l = none := by
  induction l with
  | nil => rfl
  | cons a rest ih =>
    simp only [findIdxO]
    rw [if_neg (by simp [h a (by simp)]), ih (fun x hx => h x (by simp [hx]))]
    rfl

theorem find?_eq_get_of_first (l : List α) (p : α → Bool) :
    ∀ (j : Nat) (hj : j < l.length),
      (∀ i (hi : i < l.length), i < j → p (l.get ⟨i, hi⟩) = false) →
      p (l.get ⟨j, hj⟩) = true →
      l.find? p = some (l.get ⟨j, hj⟩) := by
  induction l with
  | nil => intro j hj; simp at hj
  | cons a rest ih =>
    intro j hj hlt hp
    cases j with
    | zero => exact List.find?_cons_of_pos rest hp
    | succ jj =>
      have ha : p a = false := hlt 0 (by simp) (by omega)
      rw [List.find?_cons_of_neg rest (by simp [ha])]
      exact ih jj (by simpa using hj)
        (fun i hi hij => hlt (i + 1) (by simpa using hi) (by omega)) hp

theorem stage_self_active (n : Nat) : stageStatus n n = .active := by
  unfold stageStatus
  rw [if_neg (by omega), if_pos rfl]

theorem stage_lt_done (n i : Nat) (h : i < n) : stageStatus n i = .done := by
  unfold stageStatus
  rw [if_pos h]

theorem stage_gt_pending (n i : Nat) (h : n < i) : stageStatus n i = .pending := by
  unfold stageStatus
  rw [if_neg (by omega), if_neg (by omega)]

theorem stage_succ_eq (n i : Nat) (h1 : i ≠ n) (h2 : i ≠ n + 1) :
    stageStatus (n + 1) i = stageStatus n i := by
  unfold stageStatus
  split_ifs <;> first | rfl | omega

theorem advanceStates_found_some (plan : List PlanStep) (m : PlanState)
    (step nextStep : PlanStep) (n : Nat)
    (hfind : findIdxO (fun item => decide (item.id = step.id)) plan = some n)
    (hget : plan.get? (n + 1) = some nextStep) :
    advanceStates plan m step
      = fun k =>
          if k = nextStep.id then some .active
          else if k = step.id then some .done
          else m k := by
  simp only [advanceStates, hfind]
  have ht : ((n : Int) + 1).toNat = n + 1 := by omega
  rw [ht, hget]

theorem advanceStates_found_none (plan : List PlanStep) (m : PlanState)
    (step : PlanStep) (n : Nat)
    (hfind : findIdxO (fun item => decide (item.id = step.id)) plan = some n)
    (hget : plan.get? (n + 1) = none) :
    advanceStates plan m step
      = fun k => if k = step.id then some .done else m k := by
  simp only [advanceStates, hfind]
  have ht : ((n : Int) + 1).toNat = n + 1 := by omega
  rw [ht, hget]

theorem advanceStates_notfound (plan : List PlanStep) (m : PlanState)
    (step : PlanStep)
    (hfind : findIdxO (fun item => decide (item.id = step.id)) plan = none)
    (nextStep : PlanStep) (hget : plan.get? 0 = some nextStep) :
    advanceStates plan m step
      = fun k =>
          if k = nextStep.id then some .active
          else if k = step.id then some .done
          else m k := by
  simp only [advanceStates, hfind]
  have ht : ((-1 : Int) + 1).toNat = 0 := by omega
  rw [ht, hget]

theorem advance_IsStage (plan : List PlanStep)
    (hnd : (plan.map PlanStep.id).Nodup) (n : Nat) (hn : n < plan.length)
    (m : PlanState) (hm : IsStage plan n m) :
    IsStage plan (n + 1) (advanceStates plan m (plan.get ⟨n, hn⟩)) := by
  have hfind := findIdxO_get plan hnd n hn
  by_cases hlen : n + 1 < plan.length
  · have hget : plan.get? (n + 1) = some (plan.get ⟨n + 1, hlen⟩) :=
      List.get?_eq_get hlen
    rw [advanceStates_found_some plan m _ _ n hfind hget]
    intro i hi
    dsimp only
    by_cases h1 : i = n + 1
    · subst h1
      rw [if_pos rfl, stage_self_active]
    · have hne1 : (plan.get ⟨i, hi⟩).id ≠ (plan.get ⟨n + 1, hlen⟩).id :=
        fun h => h1 (ids_inj plan hnd i (n + 1) hi hlen h)
      rw [if_neg hne1]
      by_cases h2 : i = n
      · subst h2
        rw [if_pos rfl, stage_lt_done (i + 1) i (by omega)]
      · have hne2 : (plan.get ⟨i, hi⟩).id ≠ (plan.get ⟨n, hn⟩).id :=
          fun h => h2 (ids_inj plan hnd i n hi hn h)
        rw [if_neg hne2, hm i hi, stage_succ_eq n i h2 h1]
  · have hget : plan.get? (n + 1) = none := List.get?_eq_none.mpr (by omega)
    rw [advanceStates_found_none plan m _ n hfind hget]
    intro i hi
    dsimp only
    by_cases h2 : i = n
    · subst h2
      rw [if_pos rfl, stage_lt_done (i + 1) i (by omega)]
    · have hne2 : (plan.get ⟨i, hi⟩).id ≠ (plan.get ⟨n, hn⟩).id :=
        fun h => h2 (ids_inj plan hnd i n hi hn h)
      rw [if_neg hne2, hm i hi, stage_succ_eq n i h2 (by omega)]

theorem active_find (plan : List PlanStep) (hnd : (plan.map PlanStep.id).Nodup)
    (n : Nat) (m : PlanState) (hm : IsStage plan n m) (hn : n < plan.length) :
    plan.find? (fun st => decide (m st.id = some StepStatus.active))
      = some (plan.get ⟨n, hn⟩) := by
  apply find?_eq_get_of_first
  · intro i hi hilt
    dsimp only
    rw [hm i hi, stage_lt_done n i hilt]
    simp
  · dsimp only
    rw [hm n hn, stage_self_active]
    simp

theorem active_find_none (plan : List PlanStep) (m : PlanState)
    (hm : IsStage plan plan.length m) :
    plan.find? (fun st => decide (m st.id = some StepStatus.active)) = none := by
  apply List.find?_eq_none.mpr
  intro a ha
  obtain ⟨⟨i, hi⟩, rfl⟩ := List.mem_iff_get.mp ha
  simp only [hm i hi, stage_lt_done plan.length i hi]
  decide

theorem advanceActiveN_stage (c : MissionConfig) (bp : AgentBlueprint)
    (hnd : (bp.plan.map PlanStep.id).Nodup) :
    ∀ n, n ≤ bp.plan.length →
      (advanceActiveN (freshStudioState c bp) n).blueprint = bp ∧
      IsStage bp.plan n (advanceActiveN (freshStudioState c bp) n).planStates := by
  intro n
  induction n with
  | zero =>
    intro _
    exact ⟨rfl, reset_IsStage bp.plan hnd⟩
  | succ k ih =>
    intro hk
    have hk2 : k < bp.plan.length := by omega
    obtain ⟨hbp, hstage⟩ := ih (by omega)
    have hact :
        activeStep (advanceActiveN (freshStudioState c bp) k)
          = some (bp.plan.get ⟨k, hk2⟩) := by
      unfold activeStep
      rw [hbp]
      exact active_find bp.plan hnd k _ hstage hk2
    constructor
    · show (advanceActive 0 (advanceActiveN (freshStudioState c bp) k)).blueprint = bp
      unfold advanceActive
      rw [hact]
      simpa [handleAdvance] using hbp
    · show IsStage bp.plan (k + 1)
        (advanceActive 0 (advanceActiveN (freshStudioState c bp) k)).planStates
      unfold advanceActive
      rw [hact]
      show IsStage bp.plan (k + 1)
        (advanceStates (advanceActiveN (freshStudioState c bp) k).blueprint.plan
          (advanceActiveN (freshStudioState c bp) k).planStates _)
      rw [hbp]
      exact advance_IsStage bp.plan hnd k hk2 _ hstage

theorem countP_done_of_stage (m : PlanState) (n : Nat) :
    ∀ (l : List PlanStep) (off : Nat),
      (∀ i (hi : i < l.length),
        statusOf m (l.get ⟨i, hi⟩).id = stageStatus n (off + i)) →
      l.countP (fun st => decide (statusOf m st.id = StepStatus.done))
        = min l.length (n - off) := by
  intro l
  induction l with
  | nil => intro off _; simp
  | cons a rest ih =>
    intro off h
    have h0 : statusOf m a.id = stageStatus n off := by
      simpa using h 0 (by simp)
    have hrest : ∀ i (hi : i < rest.length),
        statusOf m (rest.get ⟨i, hi⟩).id = stageStatus n ((off + 1) + i) := by
      intro i hi
      have hx := h (i + 1) (by simp only [List.length_cons]; omega)
      simpa [show off + (i + 1) = (off + 1) + i from by omega] using hx
    have hdec : (decide (statusOf m a.id = StepStatus.done) : Bool)
        = decide (off < n) := by
      rw [h0]
      exact decide_eq_decide.mpr (stage_done_iff n off)
    rw [List.countP_cons, ih (off + 1) hrest]
    simp only [hdec]
    by_cases hoff : off < n <;> simp [hoff] <;> omega

theorem countP_active_of_stage (m : PlanState) (n : Nat) :
    ∀ (l : List PlanStep) (off : Nat),
      (∀ i (hi : i < l.length),
        statusOf m (l.get ⟨i, hi⟩).id = stageStatus n (off + i)) →
      l.countP (fun st => decide (statusOf m st.id = StepStatus.active))
        = if off ≤ n ∧ n < off + l.length then 1 else 0 := by
  intro l
  induction l with
  | nil =>
    intro off _
    rw [List.countP_nil, if_neg (by simp only [List.length_nil]; omega)]
  | cons a rest ih =>
    intro off h
    have h0 : statusOf m a.id = stageStatus n off := by
      simpa using h 0 (by simp)
    have hrest : ∀ i (hi : i < rest.length),
        statusOf m (rest.get ⟨i, hi⟩).id = stageStatus n ((off + 1) + i) := by
      intro i hi
      have hx := h (i + 1) (by simp only [List.length_cons]; omega)
      simpa [show off + (i + 1) = (off + 1) + i from by omega] using hx
    have hdec : (decide (statusOf m a.id = StepStatus.active) : Bool)
        = decide (off = n) := by
      rw [h0]
      exact decide_eq_decide.mpr (stage_active_iff n off)
    rw [List.countP_cons, ih (off + 1) hrest]
    simp only [hdec, decide_eq_true_eq, List.length_cons]
    split_ifs <;> omega

theorem find?_nondone_of_stage (plan : List PlanStep)
    (hnd : (plan.map PlanStep.id).Nodup) (n : Nat) (hn : n ≤ plan.length)
    (m : PlanState) (hm : IsStage plan n m) :
    plan.find? (fun st => !(decide (statusOf m st.id = StepStatus.done)))
      = plan.find? (fun st => decide (m st.id = some StepStatus.active)) := by
  rcases Nat.lt_or_ge n plan.length with hlt | hge
  · rw [active_find plan hnd n m hm hlt]
    apply find?_eq_get_of_first
    · intro i hi hilt
      have hst : statusOf m (plan.get ⟨i, hi⟩).id = StepStatus.done := by
        unfold statusOf
        rw [hm i hi, stage_lt_done n i hilt]
        rfl
      simp only [hst]
      decide
    · have hst : statusOf m (plan.get ⟨n, hlt⟩).id = StepStatus.active := by
        unfold statusOf
        rw [hm n hlt, stage_self_active]
        rfl
      simp only [hst]
      decide
  · have hlen : n = plan.length := by omega
    subst hlen
    rw [active_find_none plan m hm]
    apply List.find?_eq_none.mpr
    intro a ha
    obtain ⟨⟨i, hi⟩, rfl⟩ := List.mem_iff_get.mp ha
    have hst : statusOf m (plan.get ⟨i, hi⟩).id = StepStatus.done := by
      unfold statusOf
      rw [hm i hi, stage_lt_done plan.length i hi]
      rfl
    simp only [hst]
    decide

/-! Supporting lemmas for the tool-history and knowledge-search claims. -/

theorem handleToolRun_histOf (now : Nat) (s : StudioState) (toolId query : String) :
    histOf (handleToolRun now s toolId query) toolId
      = (runToolSimulation now toolId query :: histOf s toolId).take 5 := by
  simp [histOf, handleToolRun]

theorem handleToolRun_histOf_other (now : Nat) (s : StudioState)
    (toolId query t : String) (h : t ≠ toolId) :
    histOf (handleToolRun now s toolId query) t = histOf s t := by
  simp [histOf, handleToolRun, h]

theorem runToolEvents_bound (events : List (Nat × String × String)) :
    ∀ (s : StudioState), (∀ u, (histOf s u).length ≤ 5) →
      ∀ t, (histOf (runToolEvents s events) t).length ≤ 5 := by
  induction events with
  | nil =>
    intro s hs t
    exact hs t
  | cons e es ih =>
    intro s hs t
    simp only [runToolEvents]
    apply ih
    intro u
    by_cases h : u = e.2.1
    · subst h
      rw [handleToolRun_histOf, List.length_take]
      omega
    · rw [handleToolRun_histOf_other _ _ _ _ _ h]
      exact hs u

theorem hasSub_nil_left (l : List Char) : hasSub [] l = true := by
  cases l with
  | nil => rfl
  | cons b bs => rfl

theorem matchesKnowledge_empty (item : KnowledgeItem) :
    matchesKnowledge "" item = true := by
  unfold matchesKnowledge
  rw [show ("" : String).data = [] from rfl, hasSub_nil_left]
  rfl

theorem craftBlueprint_plan_ids (c : MissionConfig) :
    (craftBlueprint c).plan.map PlanStep.id
      = ["step-0", "step-1", "step-2", "step-3", "step-4"] := rfl

/-- A plan step whose id does not occur in any generated plan (used to
exercise the foreign-id advance path). -/
def ghostStep : PlanStep :=
  { id := "ghost-step"
    title := "Ghost"
    duration := "none"
    narrative := "a step outside the current plan"
    leverage := "none"
    confidence := 0
    energy := "Low"
    catalyst := "none"
    dependencies := [] }

/-! The claims. -/

/-- Claim C1: starting from a fresh plan state (step 0 active, all other
steps pending), after `n` advancements each applied to the currently
active step, exactly `n` steps are marked done, at most one step is
marked active, and the first step in plan order that is not done is
exactly the active step (both sides are `none` when every step is
done). -/
theorem claim1_plan_advancement (c : MissionConfig) (bp : AgentBlueprint)
    (hnd : (bp.plan.map PlanStep.id).Nodup) (n : Nat)
    (hn : n ≤ bp.plan.length) :
    bp.plan.countP
        (fun st =>
          decide (statusOf (advanceActiveN (freshStudioState c bp) n).planStates
            st.id = StepStatus.done)) = n ∧
    bp.plan.countP
        (fun st =>
          decide (statusOf (advanceActiveN (freshStudioState c bp) n).planStates
            st.id = StepStatus.active)) ≤ 1 ∧
    bp.plan.find?
        (fun st =>
          !(decide (statusOf (advanceActiveN (freshStudioState c bp) n).planStates
            st.id = StepStatus.done)))
      = activeStep (advanceActiveN (freshStudioState c bp) n) := by
  obtain ⟨hbp, hstage⟩ := advanceActiveN_stage c bp hnd n hn
  have hpt : ∀ i (hi : i < bp.plan.length),
      statusOf (advanceActiveN (freshStudioState c bp) n).planStates
        (bp.plan.get ⟨i, hi⟩).id = stageStatus n (0 + i) := by
    intro i hi
    unfold statusOf
    rw [hstage i hi]
    simp
  refine ⟨?_, ?_, ?_⟩
  · rw [countP_done_of_stage _ n bp.plan 0 hpt]
    omega
  · rw [countP_active_of_stage _ n bp.plan 0 hpt]
    split_ifs <;> omega
  · rw [find?_nondone_of_stage bp.plan hnd n hn _ hstage]
    unfold activeStep
    rw [hbp]

/-- Concrete instantiation of claim C1: the default blueprint after two
advancements. -/
theorem claim1_plan_advancement_witness :
    ((INITIAL_BLUEPRINT.plan.map PlanStep.id).Nodup ∧
        2 ≤ INITIAL_BLUEPRINT.plan.length) ∧
    (INITIAL_BLUEPRINT.plan.countP
        (fun st =>
          decide (statusOf
            (advanceActiveN (freshStudioState INITIAL_CONFIG INITIAL_BLUEPRINT)
              2).planStates st.id = StepStatus.done)) = 2 ∧
      INITIAL_BLUEPRINT.plan.countP
        (fun st =>
          decide (statusOf
            (advanceActiveN (freshStudioState INITIAL_CONFIG INITIAL_BLUEPRINT)
              2).planStates st.id = StepStatus.active)) ≤ 1 ∧
      INITIAL_BLUEPRINT.plan.find?
        (fun st =>
          !(decide (statusOf
            (advanceActiveN (freshStudioState INITIAL_CONFIG INITIAL_BLUEPRINT)
              2).planStates st.id = StepStatus.done)))
        = activeStep
            (advanceActiveN (freshStudioState INITIAL_CONFIG INITIAL_BLUEPRINT) 2)) :=
  ⟨⟨by decide, by decide⟩,
    claim1_plan_advancement INITIAL_CONFIG INITIAL_BLUEPRINT (by decide) 2 (by decide)⟩

/-- Claim C2: every tool invocation prepends the new run to the front of
that tool's history truncated to its first 5 elements (so the history is
most-recent-first), leaves every other tool's history unchanged, and
along any invocation sequence from the initial state no per-tool history
ever holds more than 5 entries. -/
theorem claim2_tool_history (now : Nat) (s : StudioState) (toolId query : String) :
    (histOf (handleToolRun now s toolId query) toolId
      = (runToolSimulation now toolId query :: histOf s toolId).take 5) ∧
    (∀ t, t ≠ toolId → histOf (handleToolRun now s toolId query) t = histOf s t) ∧
    (∀ events t, (histOf (runToolEvents initialState events) t).length ≤ 5) := by
  refine ⟨handleToolRun_histOf now s toolId query, ?_, ?_⟩
  · intro t ht
    exact handleToolRun_histOf_other now s toolId query t ht
  · intro events t
    apply runToolEvents_bound events initialState
    intro u
    simp [histOf, initialState, freshStudioState]

/-- Concrete instantiation of claim C2: a run on one tool leaves an
unrelated tool's history untouched. -/
theorem claim2_tool_history_witness :
    ("tool-other" ≠ "tool-signal") ∧
    histOf (handleToolRun 1 initialState "tool-signal" "growth") "tool-other"
      = histOf initialState "tool-other" :=
  ⟨by decide,
    (claim2_tool_history 1 initialState "tool-signal" "growth").2.1
      "tool-other" (by decide)⟩

/-- Claim C3: submitting a whitespace-only insight draft leaves the
entire state unchanged; submitting a non-whitespace draft prepends
exactly one new entry to the insight list and one to the activity
stream, keeping both newest-first. -/
theorem claim3_insight_guard (now : Nat) (s : StudioState) :
    (trimStr s.insightDraft = "" → handleInsightCreate now s = s) ∧
    (trimStr s.insightDraft ≠ "" →
      (handleInsightCreate now s).insights
          = { id := "insight-" ++ toString now
              text := trimStr s.insightDraft
              category := s.insightCategory
              createdAt := now } :: s.insights ∧
        (handleInsightCreate now s).activity
          = createActivity now "Insight Captured" (trimStr s.insightDraft)
              :: s.activity) := by
  constructor
  · intro h
    simp [handleInsightCreate, h]
  · intro h
    constructor <;> simp [handleInsightCreate, h]

/-- Concrete instantiation of claim C3: the initial (empty) draft is
silently ignored. -/
theorem claim3_insight_guard_witness :
    trimStr initialState.insightDraft = "" ∧
    handleInsightCreate 7 initialState = initialState :=
  ⟨by decide, (claim3_insight_guard 7 initialState).1 (by decide)⟩

/-- Claim C4: regenerating the blueprint from any configuration and any
prior state yields a plan state in which the first step of the new plan
is active and every other step is pending, discarding previous
progress. -/
theorem claim4_generate_resets (now : Nat) (s : StudioState) :
    ∀ i (hi : i < (handleGenerate now s).blueprint.plan.length),
      (handleGenerate now s).planStates
          ((handleGenerate now s).blueprint.plan.get ⟨i, hi⟩).id
        = some (if i = 0 then StepStatus.active else StepStatus.pending) := by
  intro i hi
  have hnd : ((craftBlueprint s.config).plan.map PlanStep.id).Nodup := by
    rw [craftBlueprint_plan_ids]
    decide
  show resetPlanStates (craftBlueprint s.config).plan
      ((craftBlueprint s.config).plan.get ⟨i, hi⟩).id
    = some (if i = 0 then StepStatus.active else StepStatus.pending)
  unfold resetPlanStates
  rw [buildPlanStates_get _ hnd i hi 0 _]
  simp

/-- Concrete instantiation of claim C4: after regeneration the plan step
at index 1 is pending. -/
theorem claim4_generate_resets_witness :
    1 < (handleGenerate 3 initialState).blueprint.plan.length ∧
    (handleGenerate 3 initialState).planStates
        ((handleGenerate 3 initialState).blueprint.plan.get ⟨1, by decide⟩).id
      = some (if 1 = 0 then StepStatus.active else StepStatus.pending) :=
  ⟨by decide, claim4_generate_resets 3 initialState 1 (by decide)⟩

/-- Claim C5: regenerating the blueprint leaves the per-tool run history
unchanged for every tool identifier. -/
theorem claim5_generate_preserves_history (now : Nat) (s : StudioState) :
    ∀ toolId, histOf (handleGenerate now s) toolId = histOf s toolId :=
  fun _ => rfl

/-- Claim C6: knowledge search on the empty query returns the full
static catalog, and a query matching no item (against title, summary or
tags) returns the empty list. -/
theorem claim6_knowledge_search :
    searchKnowledge "" = KNOWLEDGE_ITEMS ∧
    ∀ query,
      (∀ item ∈ KNOWLEDGE_ITEMS,
        matchesKnowledge (lowerStr (trimStr query)) item = false) →
      searchKnowledge query = [] := by
  constructor
  · rfl
  · intro query h
    by_cases hq : lowerStr (trimStr query) = ""
    · exfalso
      have hx := h (KNOWLEDGE_ITEMS.get ⟨0, by decide⟩)
        (List.get_mem KNOWLEDGE_ITEMS 0 (by decide))
      rw [hq, matchesKnowledge_empty] at hx
      exact Bool.noConfusion hx
    · simp only [searchKnowledge]
      rw [if_neg hq]
      apply List.filter_eq_nil.mpr
      intro a ha
      simp [h a ha]

/-- Concrete instantiation of claim C6: a nonsense query matches nothing
and returns the empty result list. -/
theorem claim6_knowledge_search_witness :
    (∀ item ∈ KNOWLEDGE_ITEMS,
      matchesKnowledge (lowerStr (trimStr "zzqq")) item = false) ∧
    searchKnowledge "zzqq" = [] :=
  ⟨by decide, claim6_knowledge_search.2 "zzqq" (by decide)⟩

/-- Counterexample to claim C7 as stated: editing the mission goal is a
user action on the interface, yet it prepends no activity entry — the
activity list keeps its previous length instead of growing by one. -/
theorem claim7_activity_counterexample :
    ¬ ((handleGoalChange initialState "Ship faster").activity.length
        = initialState.activity.length + 1) := by
  have h : (handleGoalChange initialState "Ship faster").activity
      = initialState.activity := rfl
  rw [h]
  omega

/-- Claim C7 amended: generating, advancing, running a tool and a
successful insight capture each prepend exactly one activity entry while
preserving all existing entries (append-only, newest first); editing the
configuration and the knowledge query add no activity entry. -/
theorem claim7_activity_amended (now : Nat) (s : StudioState) (step : PlanStep)
    (toolId query v : String) (h : trimStr s.insightDraft ≠ "") :
    (handleGenerate now s).activity
        = createActivity now "Mission Rebuilt"
            ("Agent recalibrated around \"" ++
              (if s.config.goal = "" then "new objective" else s.config.goal) ++
              "\".") :: s.activity ∧
    (handleAdvance now s step).activity
        = createActivity now "Step Advanced"
            (step.title ++ " marked complete. Catalyst: " ++ step.catalyst ++ ".")
            :: s.activity ∧
    (handleToolRun now s toolId query).activity
        = createActivity now "Tool Fired"
            (toolId ++ " returned " ++ (runToolSimulation now toolId query).headline)
            :: s.activity ∧
    (handleInsightCreate now s).activity
        = createActivity now "Insight Captured" (trimStr s.insightDraft)
            :: s.activity ∧
    (handleGoalChange s v).activity = s.activity ∧
    (handleKnowledgeQueryChange s v).activity = s.activity := by
  refine ⟨rfl, rfl, rfl, ?_, rfl, rfl⟩
  simp [handleInsightCreate, h]

/-- Concrete instantiation of the amended claim C7: a successful insight
capture prepends exactly one activity entry. -/
theorem claim7_activity_amended_witness :
    trimStr { initialState with insightDraft := "note it down" }.insightDraft ≠ "" ∧
    (handleInsightCreate 4
        { initialState with insightDraft := "note it down" }).activity
      = createActivity 4 "Insight Captured"
          (trimStr { initialState with insightDraft := "note it down" }.insightDraft)
          :: { initialState with insightDraft := "note it down" }.activity :=
  ⟨by decide,
    (claim7_activity_amended 4 { initialState with insightDraft := "note it down" }
      ghostStep "tool-signal" "q" "v" (by decide)).2.2.2.1⟩

/-- Counterexample to claim C8 as stated: triggering generation does not
replace the configuration record — it leaves it exactly as it was. -/
theorem claim8_config_counterexample :
    (handleGenerate 0 initialState).config = initialState.config := rfl

/-- Claim C8 amended: a form input replaces the configuration record by
a copy with the edited field changed; triggering generation reads the
configuration but leaves it unchanged, replacing the blueprint wholesale
instead. -/
theorem claim8_config_flow (now : Nat) (s : StudioState) (v : String) :
    (handleGoalChange s v).config = { s.config with goal := v } ∧
    (handleGenerate now s).config = s.config ∧
    (handleGenerate now s).blueprint = craftBlueprint s.config :=
  ⟨rfl, rfl, rfl⟩

/-- Claim C9: advancing a step whose id does not occur in the current
plan marks that foreign id done and additionally marks the first step of
the plan active (the not-found index -1 plus one selects position 0),
rather than leaving the plan state unchanged. -/
theorem claim9_advance_foreign (now : Nat) (s : StudioState) (step : PlanStep)
    (first : PlanStep) (hfirst : s.blueprint.plan.get? 0 = some first)
    (hmem : step.id ∉ s.blueprint.plan.map PlanStep.id) :
    (handleAdvance now s step).planStates step.id = some StepStatus.done ∧
    (handleAdvance now s step).planStates first.id = some StepStatus.active := by
  have hfind :
      findIdxO (fun item => decide (item.id = step.id)) s.blueprint.plan = none := by
    apply findIdxO_eq_none
    intro a ha
    by_contra hc
    simp only [Bool.not_eq_false, decide_eq_true_eq] at hc
    exact hmem (hc ▸ List.mem_map_of_mem PlanStep.id ha)
  have heq := advanceStates_notfound s.blueprint.plan s.planStates step hfind
    first hfirst
  have hne : step.id ≠ first.id := by
    intro hco
    apply hmem
    rw [hco]
    exact List.mem_map_of_mem PlanStep.id (List.get?_mem hfirst)
  constructor
  · show advanceStates s.blueprint.plan s.planStates step step.id
      = some StepStatus.done
    rw [heq]
    dsimp only
    rw [if_neg hne, if_pos rfl]
  · show advanceStates s.blueprint.plan s.planStates step first.id
      = some StepStatus.active
    rw [heq]
    dsimp only
    rw [if_pos rfl]

/-- Concrete instantiation of claim C9: advancing a ghost step in the
initial state completes the ghost id and re-activates step 0. -/
theorem claim9_advance_foreign_witness :
    (initialState.blueprint.plan.get? 0
        = some (INITIAL_BLUEPRINT.plan.get ⟨0, by decide⟩) ∧
      ghostStep.id ∉ initialState.blueprint.plan.map PlanStep.id) ∧
    ((handleAdvance 2 initialState ghostStep).planStates ghostStep.id
        = some StepStatus.done ∧
      (handleAdvance 2 initialState ghostStep).planStates
          (INITIAL_BLUEPRINT.plan.get ⟨0, by decide⟩).id
        = some StepStatus.active) :=
  ⟨⟨by decide, by decide⟩,
    claim9_advance_foreign 2 initialState ghostStep
      (INITIAL_BLUEPRINT.plan.get ⟨0, by decide⟩) (by decide) (by decide)⟩

/-- Claim C10: a successful insight capture stores the draft with
leading and trailing whitespace removed (not the raw draft) and resets
the draft field to the empty string. -/
theorem claim10_insight_trim (now : Nat) (s : StudioState)
    (h : trimStr s.insightDraft ≠ "") :
    (handleInsightCreate now s).insights
        = { id := "insight-" ++ toString now
            text := trimStr s.insightDraft
            category := s.insightCategory
            createdAt := now } :: s.insights ∧
      (handleInsightCreate now s).insightDraft = "" := by
  constructor <;> simp [handleInsightCreate, h]

/-- Concrete instantiation of claim C10: a padded draft is stored
trimmed and the draft is cleared. -/
theorem claim10_insight_trim_witness :
    trimStr { initialState with insightDraft := "  ship the beacon  " }.insightDraft
        ≠ "" ∧
    ((handleInsightCreate 9
        { initialState with insightDraft := "  ship the beacon  " }).insights
        = { id := "insight-" ++ toString 9
            text :=
              trimStr
                { initialState with insightDraft := "  ship the beacon  " }.insightDraft
            category :=
              { initialState with insightDraft := "  ship the beacon  " }.insightCategory
            createdAt := 9 }
          :: { initialState with insightDraft := "  ship the beacon  " }.insights ∧
      (handleInsightCreate 9
          { initialState with insightDraft := "  ship the beacon  " }).insightDraft
        = "") :=
  ⟨by decide,
    claim10_insight_trim 9 { initialState with insightDraft := "  ship the beacon  " }
      (by decide)⟩

end AgentStudio
